import Mathlib

/-!
Verification of the pdf-compress pipeline.

Shallow embedding of the four source variants of the repository
(`demo.py`, `dummy.py`, `fapi.py`, `main.py`).  External collaborators
(PIL codec, pikepdf container, fitz, ghostscript) are modelled as
environment records of abstract functions; everything the repository
itself computes (eligibility filters, substitution thresholds, resize
arithmetic, candidate selection, temp-file lifecycle, retry policy,
output-collision counters) is translated definitionally.

Numeric conventions: Python ints are `Nat`/`Int`.  The float threshold
comparisons (`len(compressed) < raw_size * 0.9` etc.) are embedded as the
exact rational comparison `len * den < raw * num` (0.9 = 9/10, 0.85 =
17/20, 0.75 = 3/4); for byte counts below 2^52 the IEEE-double
computation in the source agrees with the exact rational one, because at
an exact decimal boundary the rounding error of `raw_size * 0.9` is below
half an ulp, so the double product is the exact integer.
-/

/-- Color model of a decoded PIL image (`img.mode`). -/
inductive ImgMode
  | RGBA
  | LA
  | P
  | RGB
  | L
  | CMYK
  | Other
deriving DecidableEq

/-- A decoded raster image as PIL exposes it: mode plus pixel dimensions. -/
structure Img where
  mode : ImgMode
  width : Nat
  height : Nat
deriving DecidableEq

/-- Failures inside the raster codec collaborator (PIL decode/encode). -/
inductive PILErr
  | decodeFail
  | encodeFail
deriving DecidableEq

/-- The raster codec collaborator: `Image.open` and JPEG `img.save`.
`decode` consumes raw bytes; `encode` consumes the (normalized, resized)
image and the quality parameter. -/
structure RecodeEnv where
  decode : List Nat → Except PILErr Img
  encode : Img → Nat → Except PILErr (List Nat)

/-- Mode normalization of `compress_image_data` (identical in all four
sources): RGBA/LA are flattened onto white, P is expanded, anything that
is not RGB or L is converted to RGB. -/
def normalizeMode : ImgMode → ImgMode
  | ImgMode.RGB => ImgMode.RGB
  | ImgMode.L => ImgMode.L
  | _ => ImgMode.RGB

/-- The resize step of `compress_image_data`: if either dimension exceeds
`max_dimension`, both axes are scaled by `min(max/width, max/height)` and
truncated with `int(...)` (truncation = floor on the nonnegative values
involved).  Defined for the positive dimensions PIL produces; the source
would raise `ZeroDivisionError` on a zero dimension, which the theorems
exclude by hypothesis. -/
def resizeDims (max_dimension width height : Nat) : Nat × Nat :=
  if max_dimension < width ∨ max_dimension < height then
    let scaleFactor : ℚ :=
      min ((max_dimension : ℚ) / (width : ℚ)) ((max_dimension : ℚ) / (height : ℚ))
    (Nat.floor ((width : ℚ) * scaleFactor), Nat.floor ((height : ℚ) * scaleFactor))
  else
    (width, height)

/-- The body of `compress_image_data` without its blanket `try/except`:
decode, normalize the color mode, resize, JPEG-encode. -/
def compress_image_data_core (env : RecodeEnv) (image_bytes : List Nat)
    (quality max_dimension : Nat) : Except PILErr (List Nat × (Nat × Nat)) :=
  match env.decode image_bytes with
  | Except.error e => Except.error e
  | Except.ok img =>
      let sz := resizeDims max_dimension img.width img.height
      match env.encode ⟨normalizeMode img.mode, sz.1, sz.2⟩ quality with
      | Except.error e => Except.error e
      | Except.ok out => Except.ok (out, sz)

/-- `compress_image_data` (all sources): the core wrapped in
`try/except`, returning `(None, None)` on any failure.  The Python pair
of two correlated options is modelled as one option of a pair. -/
def compress_image_data (env : RecodeEnv) (image_bytes : List Nat)
    (quality max_dimension : Nat) : Option (List Nat × (Nat × Nat)) :=
  match compress_image_data_core env image_bytes quality max_dimension with
  | Except.ok r => some r
  | Except.error _ => none

/-- Errors raised by the container library while touching one candidate
(reading its dictionary or its bytes). -/
inductive PdfErr
  | accessFail
  | readFail
deriving DecidableEq

/-- The `/Filter` of a stream object. -/
inductive PdfFilter
  | DCTDecode
  | FlateDecode
  | NoFilter
  | OtherFilter
deriving DecidableEq

/-- One XObject entry as the scan loop inspects it: the checks performed
on it and the two byte readers (`read_raw_bytes`, `read_bytes`), either
of which may raise. -/
structure XObj where
  isStream : Bool
  subtypeImage : Bool
  width : Int
  height : Int
  filter : PdfFilter
  rawRead : Except PdfErr (List Nat)
  decodedRead : Except PdfErr (List Nat)

/-- A candidate slot of the XObject dictionary; even fetching the object
(`xobjects[name]`) can raise, which the outer `except` of the loop
catches. -/
structure Candidate where
  access : Except PdfErr XObj

/-- The replacement stream built on substitution, with the constant
metadata the sources attach (`/ColorSpace DeviceRGB`,
`/BitsPerComponent 8`, `/Filter DCTDecode`). -/
structure NewStream where
  data : List Nat
  width : Nat
  height : Nat
  colorSpaceRGB : Bool
  bitsPerComponent : Nat
  filterDCT : Bool
deriving DecidableEq

/-- Builds the replacement stream from the recoded bytes and the recoded
dimensions, exactly as the `new_stream` block of the sources. -/
def mkNewStream (d : List Nat) (sz : Nat × Nat) : NewStream :=
  ⟨d, sz.1, sz.2, true, 8, true⟩

/-- Outcome of the scan loop for one candidate: left alone, or replaced. -/
inductive StepOutcome
  | skipped
  | substituted (ns : NewStream)
deriving DecidableEq

/-- The substitution decision of the sources:
`if compressed_data and len(compressed_data) < raw_size * threshold`.
Python truthiness makes `None` and the empty byte string both fail the
first conjunct.  The float threshold is the exact rational
`tNum / tDen`. -/
def shouldSubstitute (r : Option (List Nat × (Nat × Nat)))
    (rawSize tNum tDen : Nat) : Bool :=
  match r with
  | none => false
  | some (d, _) => !d.isEmpty && decide (d.length * tDen < rawSize * tNum)

/-- Modelled from the spec: the decision rule as the specification words
it, namely substitution iff the recode result is present and the recoded
length is strictly below `rawSize * threshold` (no nonemptiness
condition).  Kept for refinement comparison against `shouldSubstitute`. -/
def specSubstituteCond (r : Option (List Nat × (Nat × Nat)))
    (rawSize tNum tDen : Nat) : Bool :=
  match r with
  | none => false
  | some (d, _) => decide (d.length * tDen < rawSize * tNum)

/-- Eligibility skip of `demo.py`, `dummy.py`, `fapi.py`:
`if width < 50 or height < 50: continue`. -/
def skipSmall50 (width height : Int) : Bool :=
  decide (width < 50) || decide (height < 50)

/-- Eligibility skip of `main.py`:
`if width < 100 and height < 100: continue`. -/
def skipSmall100 (width height : Int) : Bool :=
  decide (width < 100) && decide (height < 100)

/-- The inner `try` block of the scan loop: read the raw bytes, choose
raw bytes (DCTDecode) or filter-decoded bytes, recode, and decide
substitution against `raw_size * threshold`. -/
def innerRecode (env : RecodeEnv) (quality max_dimension tNum tDen : Nat)
    (x : XObj) : Except PdfErr StepOutcome :=
  match x.rawRead with
  | Except.error e => Except.error e
  | Except.ok raw =>
      match (if x.filter = PdfFilter.DCTDecode then x.rawRead else x.decodedRead) with
      | Except.error e => Except.error e
      | Except.ok image_data =>
          match compress_image_data env image_data quality max_dimension with
          | some (d, s) =>
              if shouldSubstitute (some (d, s)) raw.length tNum tDen then
                Except.ok (StepOutcome.substituted (mkNewStream d s))
              else
                Except.ok StepOutcome.skipped
          | none => Except.ok StepOutcome.skipped

/-- One iteration of `for name in list(xobjects.keys())`: the outer
`except` turns any access failure into a skip, the eligibility checks
skip without error, and the inner `except` turns any read/recode failure
into a skip.  `sk` is the variant-specific undersize test. -/
def scanStep (sk : Int → Int → Bool) (env : RecodeEnv)
    (quality max_dimension tNum tDen : Nat) (c : Candidate) : StepOutcome :=
  match c.access with
  | Except.error _ => StepOutcome.skipped
  | Except.ok x =>
      if !x.isStream then StepOutcome.skipped
      else if !x.subtypeImage then StepOutcome.skipped
      else if sk x.width x.height then StepOutcome.skipped
      else
        match innerRecode env quality max_dimension tNum tDen x with
        | Except.ok o => o
        | Except.error _ => StepOutcome.skipped

/-- The whole per-page candidate loop, processing the entries in order. -/
def scanXObjects (sk : Int → Int → Bool) (env : RecodeEnv)
    (quality max_dimension tNum tDen : Nat) :
    List (String × Candidate) → List (String × StepOutcome)
  | [] => []
  | (n, c) :: rest =>
      (n, scanStep sk env quality max_dimension tNum tDen c)
        :: scanXObjects sk env quality max_dimension tNum tDen rest

/-- The page loop: a page with no `/Resources` or no `/XObject` table is
`none` and is passed over without error. -/
def scanPages (sk : Int → Int → Bool) (env : RecodeEnv)
    (quality max_dimension tNum tDen : Nat)
    (pages : List (Option (List (String × Candidate)))) :
    List (Option (List (String × StepOutcome))) :=
  pages.map (fun pg => pg.map (scanXObjects sk env quality max_dimension tNum tDen))

/-- Failure to open the input as a document (`pikepdf.open` raising). -/
inductive OpenErr
  | openFail
deriving DecidableEq

/-- The container collaborator for the pikepdf-based passes: opening the
document yields its pages, and saving the (possibly mutated) document
yields an on-disk size. -/
structure DocEnv where
  openDoc : Except OpenErr (List (Option (List (String × Candidate))))
  savedSize : List (Option (List (String × StepOutcome))) → Nat
  recode : RecodeEnv

/-- What a compression run emits: the input bytes copied verbatim
(`shutil.copy2(input_path, output_path)`), or one strategy candidate. -/
inductive Output
  | original
  | candidate (tag : String)
deriving DecidableEq

/-- Stable insertion used to model `results.sort(key=lambda x: x[2])`:
Python list.sort is stable, so an element is placed before the first
strictly larger one and after equal ones already present. -/
def insertBySize (x : String × Nat) : List (String × Nat) → List (String × Nat)
  | [] => [x]
  | y :: ys => if x.2 ≤ y.2 then x :: y :: ys else y :: insertBySize x ys

/-- Stable sort by candidate size. -/
def sortBySize : List (String × Nat) → List (String × Nat)
  | [] => []
  | x :: xs => insertBySize x (sortBySize xs)

/-- Modelled from the spec wording: the first-encountered candidate of
smallest size ("ties among equally smallest candidates: first-encountered
wins"), for refinement comparison with the head of the stable sort. -/
def specFirstSmallest : List (String × Nat) → Option (String × Nat)
  | [] => none
  | x :: xs =>
      match specFirstSmallest xs with
      | none => some x
      | some y => some (if x.2 ≤ y.2 then x else y)

/-- The result selection of `dummy.py`/`fapi.py` `compress_pdf` (lines
220-232): empty candidate set falls back to a verbatim copy of the
input; otherwise the head of the sorted candidates wins if strictly
smaller than the original, else verbatim fallback. -/
def selectSmallest (original_size : Nat) (results : List (String × Nat)) :
    Nat × Nat × Output :=
  match (sortBySize results).head? with
  | none => (original_size, original_size, Output.original)
  | some best =>
      if best.2 < original_size then (original_size, best.2, Output.candidate best.1)
      else (original_size, original_size, Output.original)

/-- The candidate list of `dummy.py` `compress_pdf`, appended in source
order: ghostscript ebook, ghostscript screen, pikepdf.  A `none` entry is
a strategy whose stage reported failure and was dropped. -/
def dummyCandidates (gsEbook gsScreen pike : Option Nat) : List (String × Nat) :=
  (match gsEbook with
   | some s => [("ghostscript_ebook", s)]
   | none => []) ++
  (match gsScreen with
   | some s => [("ghostscript_screen", s)]
   | none => []) ++
  (match pike with
   | some s => [("pikepdf", s)]
   | none => [])

namespace Dummy

/-- `dummy.py` `compress_with_pikepdf`: the whole body sits in a blanket
`try/except` returning `False`, so an open failure becomes `none`; on
success the scan (threshold 0.9 = 9/10, skip below 50) runs and the
saved size is reported. -/
def compress_with_pikepdf (env : DocEnv) (quality max_dimension : Nat) : Option Nat :=
  match env.openDoc with
  | Except.error _ => none
  | Except.ok pages =>
      some (env.savedSize (scanPages skipSmall50 env.recode quality max_dimension 9 10 pages))

/-- `dummy.py` `compress_pdf`: gather the ghostscript results (external
subprocesses, given as inputs), run the pikepdf strategy at quality 45 /
max dimension 700, then select.  The `finally: shutil.rmtree(temp_dir)`
removes the scratch directory on every exit path, so the leftover temp
list is empty in every branch. -/
def compress_pdf (original_size : Nat) (gsEbook gsScreen : Option Nat)
    (env : DocEnv) : (Nat × Nat × Output) × List String :=
  let pike := compress_with_pikepdf env 45 700
  (selectSmallest original_size (dummyCandidates gsEbook gsScreen pike), [])

end Dummy

namespace Demo

/-- `demo.py` `compress_pdf` (the active definition, quality 45, max
dimension 700, threshold 0.75 = 3/4): `pikepdf.open` has no handler, so
an open failure propagates; the `finally` removes the `mkstemp` scratch
file on both the error path and the success paths; the re-serialized
document is kept only if strictly smaller, else the input is copied
verbatim. -/
def compress_pdf (env : DocEnv) (original_size quality max_dimension : Nat) :
    Except OpenErr (Nat × Nat × Output) × List String :=
  match env.openDoc with
  | Except.error e => (Except.error e, [])
  | Except.ok pages =>
      let compressed_size :=
        env.savedSize (scanPages skipSmall50 env.recode quality max_dimension 3 4 pages)
      if compressed_size < original_size then
        (Except.ok (original_size, compressed_size, Output.candidate "recoded"), [])
      else
        (Except.ok (original_size, original_size, Output.original), [])

end Demo

/-- A failing stage of the `main.py` pipeline (an exception from
pikepdf, fitz, or the filesystem propagating out of `compress_pdf`). -/
inductive StageErr
  | stageFail
deriving DecidableEq

/-- The collaborators of `main.py` `compress_pdf` over an abstract
document type: `pikePass` is `compress_images_with_pikepdf` at given
quality / max dimension (returning the images-compressed counter and the
written temp document), `fitzPass` is `compress_with_fitz`, `resave` the
final linearizing `pikepdf` save, `size` is `os.path.getsize`. -/
structure MainEnv (Doc : Type) where
  pikePass : Nat → Nat → Except StageErr (Nat × Doc)
  fitzPass : Doc → Except StageErr Doc
  resave : Doc → Except StageErr Doc
  size : Doc → Nat

/-- `reduction = (original_size - compressed_size) / original_size if
original_size > 0 else 0` of `main.py`. -/
def mainReduction (original_size compressed_size : Nat) : ℚ :=
  if 0 < original_size then
    ((original_size : ℚ) - (compressed_size : ℚ)) / (original_size : ℚ)
  else 0

namespace MainPy

/-- `main.py` `compress_pdf`: a fixed three-stage pipeline (pikepdf image
pass at 65/1200, fitz rewrite, linearizing resave), then the adaptive
retry at 45/900 when the reduction is below half the target and at least
one image was substituted.  There is no `try/finally`: the `os.remove`
calls run only on the straight-line path, so a stage that raises leaves
the already-created temp files behind (tracked in the second component);
and there is no comparison of the final size against the original. -/
def compress_pdf {Doc : Type} (env : MainEnv Doc) (original_size : Nat)
    (target_reduction : ℚ) : Except StageErr (Nat × Nat) × List String :=
  match env.pikePass 65 1200 with
  | Except.error e => (Except.error e, [])
  | Except.ok (images_compressed, d1) =>
      match env.fitzPass d1 with
      | Except.error e => (Except.error e, ["temp1"])
      | Except.ok d2 =>
          match env.resave d2 with
          | Except.error e => (Except.error e, ["temp1", "temp2"])
          | Except.ok dout =>
              let compressed_size := env.size dout
              if mainReduction original_size compressed_size < target_reduction / 2
                  ∧ 0 < images_compressed then
                match env.pikePass 45 900 with
                | Except.error e => (Except.error e, [])
                | Except.ok (_, a1) =>
                    match env.fitzPass a1 with
                    | Except.error e => (Except.error e, ["aggressive1"])
                    | Except.ok a2 =>
                        match env.resave a2 with
                        | Except.error e => (Except.error e, ["aggressive1", "aggressive2"])
                        | Except.ok aout => (Except.ok (original_size, env.size aout), [])
              else
                (Except.ok (original_size, compressed_size), [])

end MainPy

/-- A filesystem path as `get_non_overwriting_path` decomposes it:
directory, stem, extension. -/
structure FPath where
  parent : String
  stem : String
  suffix : String
deriving DecidableEq

/-- `parent / f"{stem}_{counter}{suffix}"`. -/
def pathCandidate (p : FPath) (counter : Nat) : FPath :=
  ⟨p.parent, p.stem ++ "_" ++ Nat.repr counter, p.suffix⟩

/-- `get_non_overwriting_path` of `dummy.py`/`demo.py`: return the path
itself when it does not exist, else the first `stem_k` (k = 1, 2, ...)
that does not exist.  The `while True` loop terminates exactly when some
counter value is free, which the hypothesis supplies (true on any finite
filesystem); `Nat.find` returns that least counter. -/
def get_non_overwriting_path (fsys : FPath → Bool) (p : FPath)
    (h : ∃ k, fsys (pathCandidate p (k + 1)) = false) : FPath :=
  if fsys p then pathCandidate p (Nat.find h + 1) else p

/-! Concrete instances used by the counterexamples and witnesses. -/

/-- A recode environment whose JPEG encoder returns the empty byte
string (the degenerate present-but-falsy recode result). -/
def emptyEncodeEnv : RecodeEnv :=
  ⟨fun _ => Except.ok ⟨ImgMode.RGB, 60, 60⟩, fun _ _ => Except.ok []⟩

/-- An in-bounds 60 by 60 DCT-encoded image candidate with 10 raw bytes. -/
def smallRawCand : Candidate :=
  ⟨Except.ok ⟨true, true, 60, 60, PdfFilter.DCTDecode,
    Except.ok (List.replicate 10 0), Except.ok (List.replicate 10 0)⟩⟩

/-- A recode environment that recodes everything to a single byte. -/
def tinyEncodeEnv : RecodeEnv :=
  ⟨fun _ => Except.ok ⟨ImgMode.RGB, 120, 30⟩, fun _ _ => Except.ok [7]⟩

/-- A 120 wide, 30 high image candidate: its height is below 100, but
`main.py` skips only when both dimensions are below 100. -/
def wideShortCand : Candidate :=
  ⟨Except.ok ⟨true, true, 120, 30, PdfFilter.DCTDecode,
    Except.ok (List.replicate 10 0), Except.ok (List.replicate 10 0)⟩⟩

/-- A recode environment that always fails to decode. -/
def failDecodeEnv : RecodeEnv :=
  ⟨fun _ => Except.error PILErr.decodeFail, fun _ _ => Except.error PILErr.encodeFail⟩

/-- A candidate whose very access raises. -/
def failAccessCand : Candidate := ⟨Except.error PdfErr.accessFail⟩

/-- A well-formed eligible candidate whose byte read raises. -/
def failReadCand : Candidate :=
  ⟨Except.ok ⟨true, true, 60, 60, PdfFilter.DCTDecode,
    Except.error PdfErr.readFail, Except.error PdfErr.readFail⟩⟩

/-- A document environment whose input cannot be opened at all. -/
def badOpenEnv : DocEnv :=
  ⟨Except.error OpenErr.openFail, fun _ => 0, failDecodeEnv⟩

/-- `main.py` collaborators producing a valid but larger re-serialized
document (size 200) with no image substituted. -/
def growingMainEnv : MainEnv Nat :=
  ⟨fun _ _ => Except.ok (0, 0), fun d => Except.ok d, fun d => Except.ok d, fun _ => 200⟩

/-- `main.py` collaborators whose fitz stage raises after the pikepdf
temp file was already written. -/
def fitzFailMainEnv : MainEnv Nat :=
  ⟨fun _ _ => Except.ok (1, 0), fun _ => Except.error StageErr.stageFail,
   fun d => Except.ok d, fun d => d⟩

/-- An undersized (10 by 10) image candidate. -/
def tinyImageCand : Candidate :=
  ⟨Except.ok ⟨true, true, 10, 10, PdfFilter.DCTDecode,
    Except.ok (List.replicate 10 0), Except.ok (List.replicate 10 0)⟩⟩

/-- A base output path for the collision-avoidance witness. -/
def pW : FPath := ⟨"outputs", "compressed_doc", ".pdf"⟩

/-- A filesystem on which the base path and its first numbered variant
already exist. -/
def fsysW : FPath → Bool :=
  fun q => decide (q = pW ∨ q = pathCandidate pW 1)

/-- Termination evidence for the collision-avoidance loop on `fsysW`. -/
def fsysW_free : ∃ k, fsysW (pathCandidate pW (k + 1)) = false :=
  ⟨1, by decide⟩

/-! ## Selector lemmas -/

/-- The head of the stable sort is the first-encountered smallest
candidate. -/
theorem sortBySize_head? (l : List (String × Nat)) :
    (sortBySize l).head? = specFirstSmallest l := by
  induction l with
  | nil => rfl
  | cons x xs ih =>
    show (insertBySize x (sortBySize xs)).head? = _
    cases h : sortBySize xs with
    | nil =>
      have hs : specFirstSmallest xs = none := by rw [← ih, h]; rfl
      simp [insertBySize, specFirstSmallest, hs]
    | cons y ys =>
      have hs : specFirstSmallest xs = some y := by rw [← ih, h]; rfl
      by_cases hxy : x.2 ≤ y.2 <;>
        simp [insertBySize, specFirstSmallest, hs, hxy]

theorem specFirstSmallest_mem :
    ∀ (l : List (String × Nat)) (b : String × Nat),
      specFirstSmallest l = some b → b ∈ l := by
  intro l
  induction l with
  | nil => intro b hb; cases hb
  | cons x xs ih =>
    intro b hb
    rw [specFirstSmallest] at hb
    cases h : specFirstSmallest xs with
    | none =>
      rw [h] at hb
      cases hb
      exact List.mem_cons_self x xs
    | some y =>
      rw [h] at hb
      cases hb
      by_cases hxy : x.2 ≤ y.2
      · simp only [if_pos hxy]
        exact List.mem_cons_self x xs
      · simp only [if_neg hxy]
        exact List.mem_cons_of_mem x (ih y h)

theorem specFirstSmallest_min :
    ∀ (l : List (String × Nat)) (b : String × Nat),
      specFirstSmallest l = some b → ∀ c ∈ l, b.2 ≤ c.2 := by
  intro l
  induction l with
  | nil => intro b hb; cases hb
  | cons x xs ih =>
    intro b hb c hc
    rw [specFirstSmallest] at hb
    cases h : specFirstSmallest xs with
    | none =>
      rw [h] at hb
      cases hb
      rcases List.mem_cons.mp hc with rfl | hc2
      · exact le_refl _
      · rcases xs with _ | ⟨x2, xs2⟩
        · cases hc2
        · rw [specFirstSmallest] at h
          cases h2 : specFirstSmallest xs2 <;> rw [h2] at h <;> cases h
    | some y =>
      rw [h] at hb
      cases hb
      have hy := ih y h
      rcases List.mem_cons.mp hc with rfl | hc2
      · by_cases hxy : c.2 ≤ y.2
        · simp [if_pos hxy]
        · simp only [if_neg hxy]
          exact le_of_not_le hxy
      · by_cases hxy : x.2 ≤ y.2
        · simp only [if_pos hxy]
          exact le_trans hxy (hy c hc2)
        · simp only [if_neg hxy]
          exact hy c hc2

theorem specFirstSmallest_first :
    ∀ (l : List (String × Nat)) (b : String × Nat),
      specFirstSmallest l = some b →
      ∃ i, i < l.length ∧ l[i]? = some b ∧
        ∀ j, j < i → ∀ c, l[j]? = some c → b.2 < c.2 := by
  intro l
  induction l with
  | nil => intro b hb; cases hb
  | cons x xs ih =>
    intro b hb
    rw [specFirstSmallest] at hb
    cases h : specFirstSmallest xs with
    | none =>
      rw [h] at hb
      cases hb
      exact ⟨0, Nat.succ_pos _, by simp, fun j hj => absurd hj (Nat.not_lt_zero j)⟩
    | some y =>
      rw [h] at hb
      cases hb
      by_cases hxy : x.2 ≤ y.2
      · simp only [if_pos hxy]
        exact ⟨0, Nat.succ_pos _, by simp, fun j hj => absurd hj (Nat.not_lt_zero j)⟩
      · simp only [if_neg hxy]
        obtain ⟨i, hi, hget, hbefore⟩ := ih y h
        refine ⟨i + 1, Nat.succ_lt_succ hi, ?_, ?_⟩
        · simpa using hget
        · intro j hj c hc
          cases j with
          | zero =>
            simp only [List.getElem?_cons_zero, Option.some.injEq] at hc
            subst hc
            exact lt_of_not_le hxy
          | succ j2 =>
            simp only [List.getElem?_cons_succ] at hc
            exact hbefore j2 (Nat.lt_of_succ_lt_succ hj) c hc

theorem selectSmallest_fst (original_size : Nat) (l : List (String × Nat)) :
    (selectSmallest original_size l).1 = original_size := by
  rw [selectSmallest]
  cases (sortBySize l).head? with
  | none => rfl
  | some b =>
    by_cases hb : b.2 < original_size <;> simp [hb]

theorem selectSmallest_le (original_size : Nat) (l : List (String × Nat)) :
    (selectSmallest original_size l).2.1 ≤ original_size := by
  rw [selectSmallest]
  cases (sortBySize l).head? with
  | none => exact le_refl _
  | some b =>
    by_cases hb : b.2 < original_size
    · simpa [hb] using le_of_lt hb
    · simp [hb]

theorem selectSmallest_fallback (original_size : Nat) (l : List (String × Nat))
    (hall : ∀ c ∈ l, original_size ≤ c.2) :
    selectSmallest original_size l = (original_size, original_size, Output.original) := by
  rw [selectSmallest]
  cases h : (sortBySize l).head? with
  | none => rfl
  | some b =>
    rw [sortBySize_head?] at h
    have hb := hall b (specFirstSmallest_mem l b h)
    simp [not_lt.mpr hb]

/-- Claim C4: the result selector of dummy.py picks the smallest
candidate, resolves ties to the first-encountered candidate, outputs its
bytes only when strictly smaller than the original, and otherwise (also
on an empty candidate set) emits the original verbatim with the reported
size equal to the original size. -/
theorem dummy_selector_spec (original_size : Nat) (l : List (String × Nat)) :
    (l = [] → selectSmallest original_size l
        = (original_size, original_size, Output.original))
  ∧ (∀ b, specFirstSmallest l = some b →
      ((∀ c ∈ l, b.2 ≤ c.2)
     ∧ (∃ i, i < l.length ∧ l[i]? = some b ∧
          ∀ j, j < i → ∀ c, l[j]? = some c → b.2 < c.2)
     ∧ (b.2 < original_size →
          selectSmallest original_size l = (original_size, b.2, Output.candidate b.1))
     ∧ (original_size ≤ b.2 →
          selectSmallest original_size l
            = (original_size, original_size, Output.original)))) := by
  constructor
  · rintro rfl
    rfl
  · intro b hb
    refine ⟨specFirstSmallest_min l b hb, specFirstSmallest_first l b hb, ?_, ?_⟩
    · intro hlt
      rw [selectSmallest, sortBySize_head?, hb]
      simp [hlt]
    · intro hge
      rw [selectSmallest, sortBySize_head?, hb]
      simp [not_lt.mpr hge]

/-- Witness for C4: on a tied candidate list, the first-encountered
smallest candidate is chosen and reported. -/
theorem dummy_selector_spec_witness :
    selectSmallest 4 [("ghostscript_ebook", 5), ("ghostscript_screen", 3), ("pikepdf", 3)]
      = (4, 3, Output.candidate "ghostscript_screen") :=
  ((dummy_selector_spec 4
      [("ghostscript_ebook", 5), ("ghostscript_screen", 3), ("pikepdf", 3)]).2
    ("ghostscript_screen", 3) (by decide)).2.2.1 (by decide)

/-! ## Non-growth and fallback (C1) -/

/-- Claim C1 (amended): dummy.py compress_pdf never reports a compressed
size above the original, and when no successful strategy candidate is
strictly smaller than the original (including the no-candidate case) it
emits the original bytes verbatim with compressedSize equal to
originalSize.  (main.py compress_pdf does not have this guard, see the
counterexample.) -/
theorem dummy_compress_pdf_nongrowth (original_size : Nat)
    (gsEbook gsScreen : Option Nat) (env : DocEnv) :
    (Dummy.compress_pdf original_size gsEbook gsScreen env).1.1 = original_size
  ∧ (Dummy.compress_pdf original_size gsEbook gsScreen env).1.2.1 ≤ original_size
  ∧ ((∀ c ∈ dummyCandidates gsEbook gsScreen (Dummy.compress_with_pikepdf env 45 700),
        original_size ≤ c.2) →
      (Dummy.compress_pdf original_size gsEbook gsScreen env).1
        = (original_size, original_size, Output.original)) := by
  refine ⟨selectSmallest_fst _ _, selectSmallest_le _ _, ?_⟩
  intro hall
  exact selectSmallest_fallback _ _ hall

/-- Witness for C1: with one failed strategy environment and a single
non-improving ghostscript candidate, the original is emitted unchanged. -/
theorem dummy_compress_pdf_nongrowth_witness :
    (Dummy.compress_pdf 10 (some 20) none badOpenEnv).1 = (10, 10, Output.original) :=
  (dummy_compress_pdf_nongrowth 10 (some 20) none badOpenEnv).2.2 (by decide)

/-- Counterexample to C1 as stated: main.py compress_pdf has no
non-growth guard, so with a re-serialized output of 200 bytes for a
100-byte original it returns compressedSize 200 > originalSize 100, and
the emitted document is the re-serialized one, not the original. -/
theorem main_compress_pdf_can_grow :
    MainPy.compress_pdf growingMainEnv 100 (1/4) = (Except.ok (100, 200), [])
  ∧ 100 < 200 := by
  constructor
  · simp [MainPy.compress_pdf, growingMainEnv]
  · decide

/-! ## Fatal input handling (C5) -/

/-- Claim C5 (amended): an unopenable input makes demo.py compress_pdf
(and the first pikepdf stage of main.py) propagate the failure with no
output written and no temp left; but dummy.py catches the failure inside
compress_with_pikepdf, and its compress_pdf, once the ghostscript
strategies have also failed, silently emits the original bytes with
compressedSize equal to originalSize instead of raising. -/
theorem open_failure_paths :
    (∀ env original_size quality max_dimension e, env.openDoc = Except.error e →
        Demo.compress_pdf env original_size quality max_dimension = (Except.error e, []))
  ∧ (∀ (Doc : Type) (env : MainEnv Doc) original_size t e,
        env.pikePass 65 1200 = Except.error e →
        MainPy.compress_pdf env original_size t = (Except.error e, []))
  ∧ (∀ env quality max_dimension e, env.openDoc = Except.error e →
        Dummy.compress_with_pikepdf env quality max_dimension = none)
  ∧ (∀ original_size env e, env.openDoc = Except.error e →
        Dummy.compress_pdf original_size none none env
          = ((original_size, original_size, Output.original), [])) := by
  refine ⟨?_, ?_, ?_, ?_⟩
  · intro env o q m e he
    simp only [Demo.compress_pdf, he]
  · intro Doc env o t e he
    simp only [MainPy.compress_pdf, he]
  · intro env q m e he
    simp only [Dummy.compress_with_pikepdf, he]
  · intro o env e he
    have hp : Dummy.compress_with_pikepdf env 45 700 = none := by
      simp only [Dummy.compress_with_pikepdf, he]
    simp only [Dummy.compress_pdf, hp]
    rfl

/-- Witness for C5: concrete unopenable-input environment. -/
theorem open_failure_paths_witness :
    Demo.compress_pdf badOpenEnv 100 45 700 = (Except.error OpenErr.openFail, [])
  ∧ Dummy.compress_with_pikepdf badOpenEnv 45 700 = none :=
  ⟨open_failure_paths.1 badOpenEnv 100 45 700 OpenErr.openFail rfl,
   open_failure_paths.2.2.1 badOpenEnv 45 700 OpenErr.openFail rfl⟩

/-- Counterexample to C5 as stated: dummy.py compress_pdf converts the
unopenable-input failure into the silent fallback path, returning
normally with the original copied to the output. -/
theorem dummy_open_failure_fallback :
    Dummy.compress_pdf 100 none none badOpenEnv
      = ((100, 100, Output.original), []) := rfl

/-! ## Adaptive retry (C7) -/

/-- Claim C7: on a successful first pipeline pass, main.py compress_pdf
re-runs the recode pass with the more aggressive 45/900 pair and returns
that result, if and only if the first reduction is below half the target
reduction and at least one image was substituted; otherwise the first
result stands. -/
theorem main_adaptive_retry (Doc : Type) (env : MainEnv Doc) (original_size : Nat)
    (target_reduction : ℚ) (images_compressed : Nat) (d1 d2 dout : Doc)
    (h1 : env.pikePass 65 1200 = Except.ok (images_compressed, d1))
    (h2 : env.fitzPass d1 = Except.ok d2)
    (h3 : env.resave d2 = Except.ok dout) :
    (¬ (mainReduction original_size (env.size dout) < target_reduction / 2
          ∧ 0 < images_compressed) →
        MainPy.compress_pdf env original_size target_reduction
          = (Except.ok (original_size, env.size dout), []))
  ∧ (∀ ia a1 a2 aout,
        (mainReduction original_size (env.size dout) < target_reduction / 2
          ∧ 0 < images_compressed) →
        env.pikePass 45 900 = Except.ok (ia, a1) →
        env.fitzPass a1 = Except.ok a2 →
        env.resave a2 = Except.ok aout →
        MainPy.compress_pdf env original_size target_reduction
          = (Except.ok (original_size, env.size aout), [])) := by
  constructor
  · intro hno
    simp only [MainPy.compress_pdf, h1, h2, h3]
    rw [if_neg hno]
  · intro ia a1 a2 aout hyes h4 h5 h6
    simp only [MainPy.compress_pdf, h1, h2, h3]
    rw [if_pos hyes]
    simp only [h4, h5, h6]

/-- Witness for C7: with zero substituted images the retry condition
fails and the first-pass result is returned. -/
theorem main_adaptive_retry_witness :
    MainPy.compress_pdf growingMainEnv 50 (1/4) = (Except.ok (50, 200), []) :=
  (main_adaptive_retry Nat growingMainEnv 50 (1/4) 0 0 0 0 rfl rfl rfl).1
    (fun hc => absurd hc.2 (lt_irrefl 0))

/-! ## Temp-file lifecycle (C9) -/

/-- Claim C9 (amended): demo.py and dummy.py compress_pdf delete their
scratch files on every exit path (try/finally), and main.py deletes its
temp files on its non-exception paths; but main.py has no finally, so an
exception in a later stage leaks the temp files already created (see the
counterexample). -/
theorem temps_cleanup :
    (∀ env original_size quality max_dimension,
        (Demo.compress_pdf env original_size quality max_dimension).2 = [])
  ∧ (∀ original_size gsEbook gsScreen env,
        (Dummy.compress_pdf original_size gsEbook gsScreen env).2 = [])
  ∧ (∀ (Doc : Type) (env : MainEnv Doc) original_size t images d1 d2 dout,
        env.pikePass 65 1200 = Except.ok (images, d1) →
        env.fitzPass d1 = Except.ok d2 →
        env.resave d2 = Except.ok dout →
        ¬ (mainReduction original_size (env.size dout) < t / 2 ∧ 0 < images) →
        (MainPy.compress_pdf env original_size t).2 = [])
  ∧ (∀ (Doc : Type) (env : MainEnv Doc) original_size t images d1 d2 dout ia a1 a2 aout,
        env.pikePass 65 1200 = Except.ok (images, d1) →
        env.fitzPass d1 = Except.ok d2 →
        env.resave d2 = Except.ok dout →
        (mainReduction original_size (env.size dout) < t / 2 ∧ 0 < images) →
        env.pikePass 45 900 = Except.ok (ia, a1) →
        env.fitzPass a1 = Except.ok a2 →
        env.resave a2 = Except.ok aout →
        (MainPy.compress_pdf env original_size t).2 = []) := by
  refine ⟨?_, ?_, ?_, ?_⟩
  · intro env o q m
    cases h : env.openDoc with
    | error e => simp [Demo.compress_pdf, h]
    | ok pages =>
      by_cases hc : env.savedSize (scanPages skipSmall50 env.recode q m 3 4 pages) < o <;>
        simp [Demo.compress_pdf, h, hc]
  · intro o gsE gsS env
    rfl
  · intro Doc env o t images d1 d2 dout h1 h2 h3 hno
    simp only [MainPy.compress_pdf, h1, h2, h3]
    rw [if_neg hno]
  · intro Doc env o t images d1 d2 dout ia a1 a2 aout h1 h2 h3 hyes h4 h5 h6
    simp only [MainPy.compress_pdf, h1, h2, h3]
    rw [if_pos hyes]
    simp only [h4, h5, h6]

/-- Witness for C9: a fully successful non-retry run of main.py leaves
no temp files. -/
theorem temps_cleanup_witness :
    (MainPy.compress_pdf growingMainEnv 100 (1/4)).2 = [] :=
  temps_cleanup.2.2.1 Nat growingMainEnv 100 (1/4) 0 0 0 0 rfl rfl rfl
    (fun hc => absurd hc.2 (lt_irrefl 0))

/-- Counterexample to C9 as stated: when the fitz stage of main.py
raises, the already-written pikepdf temp file is left behind. -/
theorem main_leaks_temp_on_error :
    MainPy.compress_pdf fitzFailMainEnv 100 (1/4)
      = (Except.error StageErr.stageFail, ["temp1"])
  ∧ (MainPy.compress_pdf fitzFailMainEnv 100 (1/4)).2 ≠ [] := by
  exact ⟨rfl, by decide⟩

/-! ## Substitution threshold (C2) -/

/-- Claim C2 (amended): an image stream is replaced iff the recode
result is present AND nonempty AND its byte length is strictly below
rawSize times the threshold; at the exact boundary (length times
denominator equal to rawSize times numerator) substitution does not
occur, and strictly below the boundary it does. -/
theorem substitution_threshold_rule :
    (∀ (r : Option (List Nat × (Nat × Nat))) rawSize tNum tDen,
        shouldSubstitute r rawSize tNum tDen = true ↔
          ∃ d s, r = some (d, s) ∧ d ≠ [] ∧ d.length * tDen < rawSize * tNum)
  ∧ (∀ (d : List Nat) (s : Nat × Nat) rawSize tNum tDen,
        d.length * tDen = rawSize * tNum →
        shouldSubstitute (some (d, s)) rawSize tNum tDen = false)
  ∧ (∀ (d : List Nat) (s : Nat × Nat) rawSize tNum tDen,
        d ≠ [] → d.length * tDen < rawSize * tNum →
        shouldSubstitute (some (d, s)) rawSize tNum tDen = true)
  ∧ (∀ (sk : Int → Int → Bool) env quality max_dimension tNum tDen c x raw image_data,
        c.access = Except.ok x → x.isStream = true → x.subtypeImage = true →
        sk x.width x.height = false → x.rawRead = Except.ok raw →
        (if x.filter = PdfFilter.DCTDecode then x.rawRead else x.decodedRead)
          = Except.ok image_data →
        ((∃ ns, scanStep sk env quality max_dimension tNum tDen c
            = StepOutcome.substituted ns) ↔
          shouldSubstitute (compress_image_data env image_data quality max_dimension)
            raw.length tNum tDen = true)) := by
  refine ⟨?_, ?_, ?_, ?_⟩
  · intro r rawSize tNum tDen
    cases r with
    | none => simp [shouldSubstitute]
    | some p =>
      obtain ⟨d, s⟩ := p
      simp only [shouldSubstitute, Bool.and_eq_true, Bool.not_eq_true',
        decide_eq_true_eq, Option.some.injEq, Prod.mk.injEq]
      constructor
      · rintro ⟨hne, hlt⟩
        refine ⟨d, s, ⟨rfl, rfl⟩, ?_, hlt⟩
        cases d with
        | nil => cases hne
        | cons a l2 => exact List.cons_ne_nil a l2
      · rintro ⟨d2, s2, ⟨hd2, hs2⟩, hne, hlt⟩
        subst hd2
        subst hs2
        refine ⟨?_, hlt⟩
        cases d with
        | nil => exact absurd rfl hne
        | cons a l2 => rfl
  · intro d s rawSize tNum tDen heq
    simp [shouldSubstitute, heq]
  · intro d s rawSize tNum tDen hne hlt
    cases d with
    | nil => exact absurd rfl hne
    | cons a l2 =>
      simp only [shouldSubstitute, List.isEmpty_cons, Bool.not_false, Bool.true_and,
        decide_eq_true_eq]
      exact hlt
  · intro sk env q m tNum tDen c x raw image_data hacc hstr hsub hsk hraw hdata
    have hstep : scanStep sk env q m tNum tDen c
        = match innerRecode env q m tNum tDen x with
          | Except.ok o => o
          | Except.error _ => StepOutcome.skipped := by
      simp only [scanStep, hacc, hstr, hsub, hsk, Bool.not_true, Bool.false_eq_true,
        if_false]
    have hinner2 : innerRecode env q m tNum tDen x
        = match compress_image_data env image_data q m with
          | some (d, s) =>
              if shouldSubstitute (some (d, s)) raw.length tNum tDen then
                Except.ok (StepOutcome.substituted (mkNewStream d s))
              else Except.ok StepOutcome.skipped
          | none => Except.ok StepOutcome.skipped := by
      by_cases hf : x.filter = PdfFilter.DCTDecode
      · rw [if_pos hf] at hdata
        rw [hraw] at hdata
        injection hdata with hdata2
        subst hdata2
        simp [innerRecode, hraw, if_pos hf]
      · rw [if_neg hf] at hdata
        simp [innerRecode, hraw, if_neg hf, hdata]
    rw [hstep, hinner2]
    cases hr : compress_image_data env image_data q m with
    | none => simp [shouldSubstitute]
    | some p =>
      obtain ⟨d, s⟩ := p
      by_cases hss : shouldSubstitute (some (d, s)) raw.length tNum tDen = true
      · simp [hss]
      · have hss2 : shouldSubstitute (some (d, s)) raw.length tNum tDen = false := by
          cases hb : shouldSubstitute (some (d, s)) raw.length tNum tDen
          · rfl
          · exact absurd hb hss
        simp [hss2]

/-- Witness for C2: a nonempty one-byte recode of ten raw bytes is
strictly below the 3/4 threshold, so substitution applies. -/
theorem substitution_threshold_rule_witness :
    shouldSubstitute (some ([5], (1, 1))) 10 3 4 = true :=
  substitution_threshold_rule.2.2.1 [5] (1, 1) 10 3 4 (by decide) (by decide)

/-- Counterexample to C2 as stated: a present-but-empty recode result is
strictly below the threshold of a positive raw size, so the claimed rule
demands substitution, but the Python truthiness test rejects the empty
byte string and the stream is not replaced. -/
theorem substitution_truthiness_gap :
    specSubstituteCond
        (compress_image_data emptyEncodeEnv (List.replicate 10 0) 45 700) 10 3 4 = true
  ∧ shouldSubstitute
        (compress_image_data emptyEncodeEnv (List.replicate 10 0) 45 700) 10 3 4 = false
  ∧ scanStep skipSmall50 emptyEncodeEnv 45 700 3 4 smallRawCand
      = StepOutcome.skipped :=
  ⟨rfl, rfl, rfl⟩

/-! ## Eligibility filter (C3) -/

/-- Claim C3 (amended): in the variants using the width-below-50 OR
height-below-50 skip (demo.py, dummy.py, fapi.py) an undersized image is
never substituted, for every environment and every quality, dimension
and threshold parameter; in main.py the skip fires only when BOTH
dimensions are below 100, so only images with both dimensions small are
protected (see the counterexample for one small dimension). -/
theorem eligibility_skip_rule :
    (∀ env quality max_dimension tNum tDen c x,
        c.access = Except.ok x → (x.width < 50 ∨ x.height < 50) →
        scanStep skipSmall50 env quality max_dimension tNum tDen c
          = StepOutcome.skipped)
  ∧ (∀ env quality max_dimension tNum tDen c x,
        c.access = Except.ok x → (x.width < 100 ∧ x.height < 100) →
        scanStep skipSmall100 env quality max_dimension tNum tDen c
          = StepOutcome.skipped) := by
  constructor
  · intro env q m tNum tDen c x hacc hsmall
    have hsk : skipSmall50 x.width x.height = true := by
      simp only [skipSmall50, Bool.or_eq_true, decide_eq_true_eq]
      exact hsmall
    simp [scanStep, hacc, hsk]
  · intro env q m tNum tDen c x hacc hsmall
    have hsk : skipSmall100 x.width x.height = true := by
      simp only [skipSmall100, Bool.and_eq_true, decide_eq_true_eq]
      exact hsmall
    simp [scanStep, hacc, hsk]

/-- Witness for C3: a 10 by 10 image is skipped by the 50-threshold
variants whatever the recode environment offers. -/
theorem eligibility_skip_rule_witness :
    scanStep skipSmall50 tinyEncodeEnv 45 700 3 4 tinyImageCand
      = StepOutcome.skipped :=
  eligibility_skip_rule.1 tinyEncodeEnv 45 700 3 4 tinyImageCand
    ⟨true, true, 10, 10, PdfFilter.DCTDecode,
      Except.ok (List.replicate 10 0), Except.ok (List.replicate 10 0)⟩
    rfl (Or.inl (by decide))

/-- Counterexample to C3 as stated: under main.py, a 120 by 30 image
(height below the 100 minimum) passes the AND-form skip and is
substituted. -/
theorem main_substitutes_small_height :
    scanStep skipSmall100 tinyEncodeEnv 65 1200 9 10 wideShortCand
      = StepOutcome.substituted (mkNewStream [7] (120, 30))
  ∧ (30 : Int) < 100 :=
  ⟨rfl, by decide⟩

/-! ## Failure containment (C6) -/

/-- Claim C6: any failure inside the recode body yields the absent
result instead of an exception; the candidate scan processes every entry
(length-preserving, position-independent), and a candidate whose access
or whose read/recode fails is treated as a skip while the scan
continues over the other entries. -/
theorem per_image_failures_contained :
    (∀ env image_bytes quality max_dimension e,
        compress_image_data_core env image_bytes quality max_dimension
          = Except.error e →
        compress_image_data env image_bytes quality max_dimension = none)
  ∧ (∀ sk env quality max_dimension tNum tDen l,
        (scanXObjects sk env quality max_dimension tNum tDen l).length = l.length)
  ∧ (∀ sk env quality max_dimension tNum tDen pre post n c,
        scanXObjects sk env quality max_dimension tNum tDen (pre ++ (n, c) :: post)
          = scanXObjects sk env quality max_dimension tNum tDen pre
            ++ (n, scanStep sk env quality max_dimension tNum tDen c)
              :: scanXObjects sk env quality max_dimension tNum tDen post)
  ∧ (∀ sk env quality max_dimension tNum tDen c e,
        c.access = Except.error e →
        scanStep sk env quality max_dimension tNum tDen c = StepOutcome.skipped)
  ∧ (∀ sk env quality max_dimension tNum tDen c x e,
        c.access = Except.ok x → x.isStream = true → x.subtypeImage = true →
        sk x.width x.height = false →
        innerRecode env quality max_dimension tNum tDen x = Except.error e →
        scanStep sk env quality max_dimension tNum tDen c = StepOutcome.skipped) := by
  refine ⟨?_, ?_, ?_, ?_, ?_⟩
  · intro env b q m e h
    simp [compress_image_data, h]
  · intro sk env q m tNum tDen l
    induction l with
    | nil => rfl
    | cons hd tl ih =>
      obtain ⟨n, c⟩ := hd
      simp [scanXObjects, ih]
  · intro sk env q m tNum tDen pre post n c
    induction pre with
    | nil => rfl
    | cons hd tl ih =>
      obtain ⟨n2, c2⟩ := hd
      simp [scanXObjects, ih]
  · intro sk env q m tNum tDen c e h
    simp [scanStep, h]
  · intro sk env q m tNum tDen c x e hacc hstr hsub hsk hinner
    simp [scanStep, hacc, hstr, hsub, hsk, hinner]

/-- Witness for C6: a failing decoder yields the absent recode result,
and both an access failure and a read failure are treated as skips. -/
theorem per_image_failures_contained_witness :
    compress_image_data failDecodeEnv [] 50 800 = none
  ∧ scanStep skipSmall50 failDecodeEnv 50 800 9 10 failAccessCand
      = StepOutcome.skipped
  ∧ scanStep skipSmall50 failDecodeEnv 50 800 9 10 failReadCand
      = StepOutcome.skipped :=
  ⟨per_image_failures_contained.1 failDecodeEnv [] 50 800 PILErr.decodeFail rfl,
   per_image_failures_contained.2.2.2.1 skipSmall50 failDecodeEnv 50 800 9 10
     failAccessCand PdfErr.accessFail rfl,
   per_image_failures_contained.2.2.2.2 skipSmall50 failDecodeEnv 50 800 9 10
     failReadCand
     ⟨true, true, 60, 60, PdfFilter.DCTDecode,
       Except.error PdfErr.readFail, Except.error PdfErr.readFail⟩
     PdfErr.readFail rfl rfl rfl (by decide) rfl⟩

/-! ## Resize arithmetic (C8) -/

/-- Claim C8: the recoder downscales exactly when a decoded dimension
exceeds max_dimension, both axes by the single factor
min(max/width, max/height) truncated to integers; the resulting
dimensions never exceed max_dimension; an in-bounds image keeps its
dimensions, and the recode result reports the resized dimensions. -/
theorem recoder_resize_spec (max_dimension width height : Nat)
    (hw : 0 < width) (hh : 0 < height) :
    ((width ≤ max_dimension ∧ height ≤ max_dimension) →
        resizeDims max_dimension width height = (width, height))
  ∧ ((max_dimension < width ∨ max_dimension < height) →
        resizeDims max_dimension width height
          = (Nat.floor ((width : ℚ) *
                min ((max_dimension : ℚ) / (width : ℚ))
                    ((max_dimension : ℚ) / (height : ℚ))),
             Nat.floor ((height : ℚ) *
                min ((max_dimension : ℚ) / (width : ℚ))
                    ((max_dimension : ℚ) / (height : ℚ)))))
  ∧ (resizeDims max_dimension width height).1 ≤ max_dimension
  ∧ (resizeDims max_dimension width height).2 ≤ max_dimension
  ∧ (∀ env image_bytes quality img d s,
        env.decode image_bytes = Except.ok img →
        img.width = width → img.height = height →
        compress_image_data env image_bytes quality max_dimension = some (d, s) →
        s = resizeDims max_dimension width height) := by
  have hwq : (width : ℚ) ≠ 0 := Nat.cast_ne_zero.mpr hw.ne'
  have hhq : (height : ℚ) ≠ 0 := Nat.cast_ne_zero.mpr hh.ne'
  have hb1 : Nat.floor ((width : ℚ) *
      min ((max_dimension : ℚ) / (width : ℚ)) ((max_dimension : ℚ) / (height : ℚ)))
        ≤ max_dimension := by
    have h1 : (width : ℚ) *
        min ((max_dimension : ℚ) / (width : ℚ)) ((max_dimension : ℚ) / (height : ℚ))
          ≤ (width : ℚ) * ((max_dimension : ℚ) / (width : ℚ)) :=
      mul_le_mul_of_nonneg_left (min_le_left _ _) (by positivity)
    have h2 : (width : ℚ) * ((max_dimension : ℚ) / (width : ℚ)) = (max_dimension : ℚ) := by
      field_simp
    calc Nat.floor ((width : ℚ) *
          min ((max_dimension : ℚ) / (width : ℚ)) ((max_dimension : ℚ) / (height : ℚ)))
        ≤ Nat.floor ((max_dimension : ℚ)) := Nat.floor_le_floor (by linarith)
      _ = max_dimension := Nat.floor_natCast _
  have hb2 : Nat.floor ((height : ℚ) *
      min ((max_dimension : ℚ) / (width : ℚ)) ((max_dimension : ℚ) / (height : ℚ)))
        ≤ max_dimension := by
    have h1 : (height : ℚ) *
        min ((max_dimension : ℚ) / (width : ℚ)) ((max_dimension : ℚ) / (height : ℚ))
          ≤ (height : ℚ) * ((max_dimension : ℚ) / (height : ℚ)) :=
      mul_le_mul_of_nonneg_left (min_le_right _ _) (by positivity)
    have h2 : (height : ℚ) * ((max_dimension : ℚ) / (height : ℚ)) = (max_dimension : ℚ) := by
      field_simp
    calc Nat.floor ((height : ℚ) *
          min ((max_dimension : ℚ) / (width : ℚ)) ((max_dimension : ℚ) / (height : ℚ)))
        ≤ Nat.floor ((max_dimension : ℚ)) := Nat.floor_le_floor (by linarith)
      _ = max_dimension := Nat.floor_natCast _
  refine ⟨?_, ?_, ?_, ?_, ?_⟩
  · rintro ⟨h1, h2⟩
    simp only [resizeDims]
    rw [if_neg]
    push_neg
    exact ⟨h1, h2⟩
  · intro hcase
    simp only [resizeDims]
    rw [if_pos hcase]
  · by_cases hcase : max_dimension < width ∨ max_dimension < height
    · simp only [resizeDims, if_pos hcase]
      exact hb1
    · simp only [resizeDims, if_neg hcase]
      push_neg at hcase
      exact hcase.1
  · by_cases hcase : max_dimension < width ∨ max_dimension < height
    · simp only [resizeDims, if_pos hcase]
      exact hb2
    · simp only [resizeDims, if_neg hcase]
      push_neg at hcase
      exact hcase.2
  · intro env image_bytes quality img d s hdec hwid hhei hcomp
    simp only [compress_image_data, compress_image_data_core, hdec] at hcomp
    cases henc : env.encode
        ⟨normalizeMode img.mode,
          (resizeDims max_dimension img.width img.height).1,
          (resizeDims max_dimension img.width img.height).2⟩ quality with
    | error e =>
      rw [henc] at hcomp
      cases hcomp
    | ok out =>
      rw [henc] at hcomp
      injection hcomp with hpair
      injection hpair with hd hs
      rw [← hs, hwid, hhei]

/-- Witness for C8: a 20 by 5 image against max dimension 10. -/
theorem recoder_resize_spec_witness :
    (resizeDims 10 20 5).1 ≤ 10 ∧ (resizeDims 10 20 5).2 ≤ 10 :=
  ⟨(recoder_resize_spec 10 20 5 (by decide) (by decide)).2.2.1,
   (recoder_resize_spec 10 20 5 (by decide) (by decide)).2.2.2.1⟩

/-! ## Output collision avoidance (C10) -/

/-- Claim C10: get_non_overwriting_path returns a path that does not
exist on the given filesystem snapshot: the input itself when free,
otherwise the numbered variant with the smallest counter k of at least 1
whose path is free (every smaller counter being taken). -/
theorem non_overwriting_path_spec (fsys : FPath → Bool) (p : FPath)
    (h : ∃ k, fsys (pathCandidate p (k + 1)) = false) :
    fsys (get_non_overwriting_path fsys p h) = false
  ∧ (fsys p = false → get_non_overwriting_path fsys p h = p)
  ∧ (fsys p = true → ∃ k, 1 ≤ k
      ∧ get_non_overwriting_path fsys p h = pathCandidate p k
      ∧ fsys (pathCandidate p k) = false
      ∧ ∀ j, 1 ≤ j → j < k → fsys (pathCandidate p j) = true) := by
  refine ⟨?_, ?_, ?_⟩
  · by_cases hp : fsys p
    · simp only [get_non_overwriting_path, if_pos hp]
      exact Nat.find_spec h
    · simp only [get_non_overwriting_path, if_neg hp]
      cases hb : fsys p with
      | false => rfl
      | true => exact absurd hb hp
  · intro hp
    simp [get_non_overwriting_path, hp]
  · intro hp
    refine ⟨Nat.find h + 1, Nat.le_add_left 1 _, ?_, Nat.find_spec h, ?_⟩
    · simp [get_non_overwriting_path, hp]
    · intro j hj1 hjlt
      have hj2 : j - 1 < Nat.find h := by omega
      have hmin := Nat.find_min h hj2
      have hj3 : j - 1 + 1 = j := by omega
      rw [hj3] at hmin
      cases hb : fsys (pathCandidate p j) with
      | false => exact absurd hb hmin
      | true => rfl

/-- Witness for C10: on a filesystem holding the base path and its first
numbered variant, the returned path is free. -/
theorem non_overwriting_path_spec_witness :
    fsysW (get_non_overwriting_path fsysW pW fsysW_free) = false :=
  (non_overwriting_path_spec fsysW pW fsysW_free).1
